import Mathlib

/-!
Formal model of `src/DataAnalysis/Fitting/least_squares.py`.

The Python function `least_squares(x, y)` fits a line `y = a + b·x` to paired
data by ordinary least squares.  It guards on `N = len(x) <= 2` and on
`|denom| < 0.000001` (printing a message and calling `sys.exit()` in either
case), computes the sufficient statistics `s_x, s_y, s_xx, s_xy`, the
closed-form intercept `a` and slope `b`, and residual-based uncertainties
`sigma, sigma_a, sigma_b`, returning `[a, b, sigma, sigma_a, sigma_b]`.

The data are modelled as lists of real numbers (the spec speaks of sequences
of real numbers; numpy float arithmetic is modelled by exact real
arithmetic).  A call's outcome is either `FitOutcome.sysExit err msg` —
modelling the `print(msg)` followed by `sys.exit()` at one of the two guard
sites, tagged with which guard fired — or `FitOutcome.result r` with `r` the
five returned scalars.
-/

namespace LeastSquaresFit

/-- The five scalars returned on success (line 52 of the source):
intercept `a`, slope `b`, residual scale `sigma`, and the two parameter
uncertainties `sigma_a`, `sigma_b`. -/
structure FitResult where
  a : ℝ
  b : ℝ
  sigma : ℝ
  sigma_a : ℝ
  sigma_b : ℝ

/-- Which of the two guards fired: the insufficient-data guard at line 24
(`N <= 2`) or the degenerate-denominator guard at line 34
(`abs(denom) < 0.000001`). -/
inductive FitError where
  | InsufficientData
  | DegenerateInput
deriving DecidableEq

/-- Outcome of a call to `least_squares`: either the process is terminated by
`sys.exit()` after printing `msg` (the code's behaviour at both guard sites),
or the list `[a, b, sigma, sigma_a, sigma_b]` is returned. -/
inductive FitOutcome where
  | sysExit (err : FitError) (msg : String)
  | result (r : FitResult)

/-- Line 29: `s_x = np.sum(x)`. -/
def s_x (x : List ℝ) : ℝ := x.sum

/-- Line 30: `s_y = np.sum(y)`. -/
def s_y (y : List ℝ) : ℝ := y.sum

/-- Line 31: `s_xx = np.sum(x**2)`. -/
def s_xx (x : List ℝ) : ℝ := (x.map fun t => t ^ 2).sum

/-- Line 32: `s_xy = np.sum(x * y)` (elementwise product of the paired data). -/
def s_xy (x y : List ℝ) : ℝ := (List.zipWith (fun xi yi => xi * yi) x y).sum

/-- Line 33: `denom = N * s_xx - s_x**2` with `N = len(x)`. -/
def denom (x : List ℝ) : ℝ := (x.length : ℝ) * s_xx x - s_x x ^ 2

/-- Line 39: `a = (s_xx * s_y - s_x * s_xy) / denom`. -/
noncomputable def fit_a (x y : List ℝ) : ℝ :=
  (s_xx x * s_y y - s_x x * s_xy x y) / denom x

/-- Line 40: `b = (N * s_xy - s_x * s_y) / denom`. -/
noncomputable def fit_b (x y : List ℝ) : ℝ :=
  ((x.length : ℝ) * s_xy x y - s_x x * s_y y) / denom x

/-- The residual sum of squares `np.sum((y - (p + q * x))**2)` appearing
inside line 44, for an arbitrary candidate intercept `p` and slope `q`. -/
def RSSat (x y : List ℝ) (p q : ℝ) : ℝ :=
  (List.zipWith (fun yi xi => (yi - (p + q * xi)) ^ 2) y x).sum

/-- Line 44: `sigma = np.sqrt(np.sum((y - (a + b * x))**2) / (N - 2))`. -/
noncomputable def sigma (x y : List ℝ) : ℝ :=
  Real.sqrt (RSSat x y (fit_a x y) (fit_b x y) / ((x.length : ℝ) - 2))

/-- Line 45: `sigma_a = np.sqrt(sigma**2 * s_xx / denom)`. -/
noncomputable def sigma_a (x y : List ℝ) : ℝ :=
  Real.sqrt (sigma x y ^ 2 * s_xx x / denom x)

/-- Line 46: `sigma_b = np.sqrt(sigma**2 * N / denom)`. -/
noncomputable def sigma_b (x y : List ℝ) : ℝ :=
  Real.sqrt (sigma x y ^ 2 * (x.length : ℝ) / denom x)

/-- The whole function `least_squares(x, y)` (lines 6–52), with the control
flow of the source: the `N <= 2` guard first, then the statistics and the
`abs(denom) < 0.000001` guard, then `a`, `b`, and the `if N > 2` branch for
the uncertainties (whose `else` arm returns zeros). -/
noncomputable def least_squares (x y : List ℝ) : FitOutcome :=
  if x.length ≤ 2 then
    FitOutcome.sysExit FitError.InsufficientData "Error! Need at least two data points!"
  else if |denom x| < 0.000001 then
    FitOutcome.sysExit FitError.DegenerateInput "Error! Denomominator is zero!"
  else if 2 < x.length then
    FitOutcome.result ⟨fit_a x y, fit_b x y, sigma x y, sigma_a x y, sigma_b x y⟩
  else
    FitOutcome.result ⟨fit_a x y, fit_b x y, 0, 0, 0⟩

/-- The outcome models a `print` followed by `sys.exit()`: the calling
process is terminated. -/
def terminatesProcess (o : FitOutcome) : Prop :=
  ∃ e m, o = FitOutcome.sysExit e m

/- Guard unfolding lemmas. -/

lemma least_squares_insufficient (x y : List ℝ) (h : x.length ≤ 2) :
    least_squares x y =
      FitOutcome.sysExit FitError.InsufficientData "Error! Need at least two data points!" := by
  simp [least_squares, h]

lemma least_squares_degenerate (x y : List ℝ) (hN : 2 < x.length)
    (hd : |denom x| < 0.000001) :
    least_squares x y =
      FitOutcome.sysExit FitError.DegenerateInput "Error! Denomominator is zero!" := by
  have h2 : ¬ x.length ≤ 2 := by omega
  simp [least_squares, h2, hd]

lemma least_squares_success (x y : List ℝ) (hN : 2 < x.length)
    (hd : ¬ |denom x| < 0.000001) :
    least_squares x y =
      FitOutcome.result ⟨fit_a x y, fit_b x y, sigma x y, sigma_a x y, sigma_b x y⟩ := by
  have h2 : ¬ x.length ≤ 2 := by omega
  simp [least_squares, h2, hd, hN]

lemma least_squares_result_inv (x y : List ℝ) (r : FitResult)
    (h : least_squares x y = FitOutcome.result r) :
    2 < x.length ∧ ¬ |denom x| < 0.000001 ∧
      r = ⟨fit_a x y, fit_b x y, sigma x y, sigma_a x y, sigma_b x y⟩ := by
  by_cases h2 : x.length ≤ 2
  · rw [least_squares_insufficient x y h2] at h
    exact absurd h (by simp)
  · have hN : 2 < x.length := by omega
    by_cases hd : |denom x| < 0.000001
    · rw [least_squares_degenerate x y hN hd] at h
      exact absurd h (by simp)
    · rw [least_squares_success x y hN hd] at h
      simp only [FitOutcome.result.injEq] at h
      exact ⟨hN, hd, h.symm⟩

/- Sum expansion lemmas: the zipWith sums over paired lists, expressed through
the sufficient statistics. -/

lemma sum_residuals (x y : List ℝ) (h : x.length = y.length) (p q : ℝ) :
    (List.zipWith (fun xi yi => yi - p - q * xi) x y).sum
      = s_y y - (x.length : ℝ) * p - q * s_x x := by
  induction x generalizing y with
  | nil =>
    cases y with
    | nil => simp [s_x, s_y]
    | cons b ys => simp at h
  | cons a xs ih =>
    cases y with
    | nil => simp at h
    | cons b ys =>
      have h' : xs.length = ys.length := by simpa using h
      have e := ih ys h'
      simp only [s_x, s_y] at e ⊢
      simp only [List.zipWith_cons_cons, List.sum_cons, List.length_cons, e]
      push_cast
      ring

lemma sum_x_residuals (x y : List ℝ) (h : x.length = y.length) (p q : ℝ) :
    (List.zipWith (fun xi yi => xi * (yi - p - q * xi)) x y).sum
      = s_xy x y - p * s_x x - q * s_xx x := by
  induction x generalizing y with
  | nil =>
    cases y with
    | nil => simp [s_x, s_xx, s_xy]
    | cons b ys => simp at h
  | cons a xs ih =>
    cases y with
    | nil => simp at h
    | cons b ys =>
      have h' : xs.length = ys.length := by simpa using h
      have e := ih ys h'
      simp only [s_x, s_xx, s_xy] at e ⊢
      simp only [List.zipWith_cons_cons, List.map_cons, List.sum_cons, e]
      ring

lemma RSSat_decomp (x y : List ℝ) (h : x.length = y.length) (p q p' q' : ℝ) :
    RSSat x y p' q'
      = RSSat x y p q
        + (x.map fun t => (p - p' + (q - q') * t) ^ 2).sum
        + 2 * (p - p') * (List.zipWith (fun xi yi => yi - p - q * xi) x y).sum
        + 2 * (q - q') * (List.zipWith (fun xi yi => xi * (yi - p - q * xi)) x y).sum := by
  induction x generalizing y with
  | nil =>
    cases y with
    | nil => simp [RSSat]
    | cons b ys => simp at h
  | cons a xs ih =>
    cases y with
    | nil => simp at h
    | cons b ys =>
      have h' : xs.length = ys.length := by simpa using h
      have e := ih ys h'
      simp only [RSSat] at e ⊢
      simp only [List.zipWith_cons_cons, List.map_cons, List.sum_cons, e]
      ring

lemma denom_ne_zero_of_guard (x : List ℝ) (hd : ¬ |denom x| < 0.000001) :
    denom x ≠ 0 := by
  intro h0
  rw [h0] at hd
  exact hd (by norm_num)

/-- The fitted intercept and slope satisfy the two normal equations: the
residuals sum to zero, and are orthogonal to the x data. -/
lemma normal_equations (x y : List ℝ) (hlen : x.length = y.length)
    (hd : denom x ≠ 0) :
    (List.zipWith (fun xi yi => yi - fit_a x y - fit_b x y * xi) x y).sum = 0 ∧
    (List.zipWith (fun xi yi => xi * (yi - fit_a x y - fit_b x y * xi)) x y).sum = 0 := by
  have hd' : (x.length : ℝ) * s_xx x - s_x x ^ 2 ≠ 0 := by
    simpa [denom] using hd
  rw [sum_residuals x y hlen, sum_x_residuals x y hlen]
  constructor
  · rw [fit_a, fit_b, denom]
    field_simp
    ring
  · rw [fit_a, fit_b, denom]
    field_simp
    ring

/- Finset expansions of the list sums, and the double-sum identity
`2·denom = Σᵢ Σⱼ (xᵢ − xⱼ)²`. -/

lemma sum_getD (l : List ℝ) :
    l.sum = ∑ i in Finset.range l.length, l.getD i 0 := by
  induction l with
  | nil => simp
  | cons a t ih =>
    rw [List.sum_cons, List.length_cons, Finset.sum_range_succ']
    simp only [List.getD_cons_succ, List.getD_cons_zero, ← ih]
    ring

lemma sum_sq_getD (l : List ℝ) :
    (l.map fun t => t ^ 2).sum = ∑ i in Finset.range l.length, l.getD i 0 ^ 2 := by
  induction l with
  | nil => simp
  | cons a t ih =>
    rw [List.map_cons, List.sum_cons, List.length_cons, Finset.sum_range_succ']
    simp only [List.getD_cons_succ, List.getD_cons_zero, ← ih]
    ring

lemma denom_double_sum (x : List ℝ) :
    2 * denom x
      = ∑ i in Finset.range x.length, ∑ j in Finset.range x.length,
          (x.getD i 0 - x.getD j 0) ^ 2 := by
  have inner : ∀ i,
      ∑ j in Finset.range x.length, (x.getD i 0 - x.getD j 0) ^ 2
        = (x.length : ℝ) * x.getD i 0 ^ 2
            - 2 * x.getD i 0 * (∑ j in Finset.range x.length, x.getD j 0)
            + ∑ j in Finset.range x.length, x.getD j 0 ^ 2 := by
    intro i
    have e : ∀ j ∈ Finset.range x.length,
        (x.getD i 0 - x.getD j 0) ^ 2
          = x.getD i 0 ^ 2 - 2 * x.getD i 0 * x.getD j 0 + x.getD j 0 ^ 2 := by
      intro j _
      ring
    rw [Finset.sum_congr rfl e, Finset.sum_add_distrib, Finset.sum_sub_distrib,
      Finset.sum_const, Finset.card_range, nsmul_eq_mul, ← Finset.mul_sum]
  rw [Finset.sum_congr rfl fun i _ => inner i, Finset.sum_add_distrib,
    Finset.sum_sub_distrib, ← Finset.mul_sum, Finset.sum_const, Finset.card_range,
    nsmul_eq_mul, ← Finset.sum_mul, ← Finset.mul_sum]
  rw [denom, s_xx, s_x, sum_getD x, sum_sq_getD x]
  ring

lemma denom_nonneg (x : List ℝ) : 0 ≤ denom x := by
  have h := denom_double_sum x
  have hs : 0 ≤ ∑ i in Finset.range x.length, ∑ j in Finset.range x.length,
      (x.getD i 0 - x.getD j 0) ^ 2 :=
    Finset.sum_nonneg fun i _ => Finset.sum_nonneg fun j _ => sq_nonneg _
  linarith

lemma denom_pos_of_guard (x : List ℝ) (hd : ¬ |denom x| < 0.000001) :
    0 < denom x := by
  rw [abs_of_nonneg (denom_nonneg x)] at hd
  push_neg at hd
  have : (0 : ℝ) < 0.000001 := by norm_num
  linarith

lemma denom_zero_iff_getD (x : List ℝ) :
    denom x = 0 ↔
      ∀ i < x.length, ∀ j < x.length, x.getD i 0 = x.getD j 0 := by
  constructor
  · intro h0
    have hsum : ∑ i in Finset.range x.length, ∑ j in Finset.range x.length,
        (x.getD i 0 - x.getD j 0) ^ 2 = 0 := by
      rw [← denom_double_sum, h0]
      ring
    rw [Finset.sum_eq_zero_iff_of_nonneg
      (fun i _ => Finset.sum_nonneg fun j _ => sq_nonneg _)] at hsum
    intro i hi j hj
    have h1 := hsum i (Finset.mem_range.mpr hi)
    rw [Finset.sum_eq_zero_iff_of_nonneg (fun j _ => sq_nonneg _)] at h1
    have h2 := h1 j (Finset.mem_range.mpr hj)
    have h3 : x.getD i 0 - x.getD j 0 = 0 := by
      exact sq_eq_zero_iff.mp h2
    linarith
  · intro hall
    have hsum : ∑ i in Finset.range x.length, ∑ j in Finset.range x.length,
        (x.getD i 0 - x.getD j 0) ^ 2 = 0 := by
      refine Finset.sum_eq_zero fun i hi => Finset.sum_eq_zero fun j hj => ?_
      rw [hall i (Finset.mem_range.mp hi) j (Finset.mem_range.mp hj)]
      ring
    have h := denom_double_sum x
    rw [hsum] at h
    linarith

/- A concrete successful input, used by the witnesses: x = [1,2,3],
y = [1,2,3] (a perfect line y = x, with denom = 3·14 − 6² = 6). -/

def xEx : List ℝ := [1, 2, 3]

def yEx : List ℝ := [1, 2, 3]

noncomputable def rEx : FitResult :=
  ⟨fit_a xEx yEx, fit_b xEx yEx, sigma xEx yEx, sigma_a xEx yEx, sigma_b xEx yEx⟩

lemma denom_xEx : denom xEx = 6 := by
  norm_num [denom, s_xx, s_x, xEx]

lemma guard_denom_xEx : ¬ |denom xEx| < 0.000001 := by
  rw [denom_xEx, abs_of_pos] <;> norm_num

lemma length_xEx : 2 < xEx.length := by simp [xEx]

lemma ls_example : least_squares xEx yEx = FitOutcome.result rEx :=
  least_squares_success xEx yEx length_xEx guard_denom_xEx

lemma RSSat_nonneg (x y : List ℝ) (p q : ℝ) : 0 ≤ RSSat x y p q := by
  induction y generalizing x with
  | nil => simp [RSSat]
  | cons b ys ih =>
    cases x with
    | nil => simp [RSSat]
    | cons a xs =>
      have h1 := ih xs
      simp only [RSSat, List.zipWith_cons_cons, List.sum_cons] at h1 ⊢
      have h2 := sq_nonneg (b - (p + q * a))
      linarith

lemma s_xx_nonneg (x : List ℝ) : 0 ≤ s_xx x := by
  apply List.sum_nonneg
  intro z hz
  obtain ⟨t, -, rfl⟩ := List.mem_map.mp hz
  exact sq_nonneg t

/- The claim theorems. -/

/-- C1: for every pair of equal-length real sequences that passes both guards
(so that `least_squares` returns a result `r`), the returned intercept `r.a`
and slope `r.b` minimize the sum of squared residuals `Σ(yᵢ − a − b·xᵢ)²`
over all real choices of intercept and slope. -/
theorem C1_least_squares_minimizes (x y : List ℝ) (r : FitResult)
    (hlen : x.length = y.length)
    (h : least_squares x y = FitOutcome.result r) :
    ∀ p q : ℝ, RSSat x y r.a r.b ≤ RSSat x y p q := by
  obtain ⟨hN, hd, hr⟩ := least_squares_result_inv x y r h
  subst hr
  intro p q
  obtain ⟨h1, h2⟩ := normal_equations x y hlen (denom_ne_zero_of_guard x hd)
  have hdec := RSSat_decomp x y hlen (fit_a x y) (fit_b x y) p q
  rw [h1, h2] at hdec
  have hq : 0 ≤ (x.map fun t => (fit_a x y - p + (fit_b x y - q) * t) ^ 2).sum := by
    apply List.sum_nonneg
    intro z hz
    obtain ⟨t, -, rfl⟩ := List.mem_map.mp hz
    exact sq_nonneg _
  show RSSat x y (fit_a x y) (fit_b x y) ≤ RSSat x y p q
  linarith [hdec]

/-- Witness for C1 at x = y = [1,2,3] and the candidate line p = 1, q = 0. -/
theorem C1_least_squares_minimizes_witness :
    RSSat xEx yEx rEx.a rEx.b ≤ RSSat xEx yEx 1 0 :=
  C1_least_squares_minimizes xEx yEx rEx rfl ls_example 1 0

/-- C2 counterexample: on the guarded input x = [1,2], y = [1,2] the call does
terminate the calling process (the code prints a message and calls
`sys.exit()`), contradicting the claim that a guard failure is surfaced as a
recoverable error value and the process is not terminated. -/
theorem C2_counterexample :
    terminatesProcess (least_squares [1, 2] [1, 2]) :=
  ⟨FitError.InsufficientData, "Error! Need at least two data points!",
    least_squares_insufficient [1, 2] [1, 2] (by simp)⟩

/-- C2 (amended): for every input on which a guard fires, `least_squares`
prints a message and terminates the calling process via `sys.exit()`; it
returns no `FitResult` (so no sentinel value), and the two guards are
distinguishable by their distinct messages — but the failure is a
process-terminating action, not a typed recoverable error value. -/
theorem C2_guard_failure_exits (x y : List ℝ)
    (h : x.length ≤ 2 ∨ |denom x| < 0.000001) :
    terminatesProcess (least_squares x y) ∧
    (∀ r : FitResult, least_squares x y ≠ FitOutcome.result r) ∧
    (x.length ≤ 2 →
      least_squares x y
        = FitOutcome.sysExit FitError.InsufficientData
            "Error! Need at least two data points!") ∧
    (2 < x.length →
      least_squares x y
        = FitOutcome.sysExit FitError.DegenerateInput
            "Error! Denomominator is zero!") := by
  by_cases h2 : x.length ≤ 2
  · rw [least_squares_insufficient x y h2]
    exact ⟨⟨_, _, rfl⟩, fun r heq => FitOutcome.noConfusion heq,
      fun _ => rfl, fun hN => absurd h2 (by omega)⟩
  · have hN : 2 < x.length := by omega
    have hd : |denom x| < 0.000001 := h.resolve_left h2
    rw [least_squares_degenerate x y hN hd]
    exact ⟨⟨_, _, rfl⟩, fun r heq => FitOutcome.noConfusion heq,
      fun hc => absurd hc h2, fun _ => rfl⟩

/-- Witness for the amended C2 at x = [1,2], y = [1,2]. -/
theorem C2_guard_failure_exits_witness :
    terminatesProcess (least_squares [1, 2] [1, 2]) ∧
    least_squares [1, 2] [1, 2]
      = FitOutcome.sysExit FitError.InsufficientData
          "Error! Need at least two data points!" :=
  ⟨(C2_guard_failure_exits [1, 2] [1, 2] (Or.inl (by simp))).1,
   (C2_guard_failure_exits [1, 2] [1, 2] (Or.inl (by simp))).2.2.1 (by simp)⟩

/-- C3: on every successful call the returned intercept and slope equal
exactly the closed-form solutions
a = (s_xx·s_y − s_x·s_xy)/denom and b = (N·s_xy − s_x·s_y)/denom. -/
theorem C3_closed_form (x y : List ℝ) (r : FitResult)
    (h : least_squares x y = FitOutcome.result r) :
    r.a = (s_xx x * s_y y - s_x x * s_xy x y) / denom x ∧
    r.b = ((x.length : ℝ) * s_xy x y - s_x x * s_y y) / denom x := by
  obtain ⟨-, -, hr⟩ := least_squares_result_inv x y r h
  subst hr
  exact ⟨rfl, rfl⟩

/-- Witness for C3 at x = y = [1,2,3]. -/
theorem C3_closed_form_witness :
    rEx.a = (s_xx xEx * s_y yEx - s_x xEx * s_xy xEx yEx) / denom xEx ∧
    rEx.b = ((xEx.length : ℝ) * s_xy xEx yEx - s_x xEx * s_y yEx) / denom xEx :=
  C3_closed_form xEx yEx rEx ls_example

/-- C4: on every successful call the three uncertainty outputs have the form
sigma = sqrt(RSS/(N−2)), sigma_a = sqrt(sigma²·s_xx/denom),
sigma_b = sqrt(sigma²·N/denom); every returned result comes from the `N > 2`
branch (the guard guarantees `2 < N`), so the branch assigning zeros is never
the source of a returned result. -/
theorem C4_uncertainties (x y : List ℝ) (r : FitResult)
    (h : least_squares x y = FitOutcome.result r) :
    2 < x.length ∧
    r.sigma = Real.sqrt (RSSat x y r.a r.b / ((x.length : ℝ) - 2)) ∧
    r.sigma_a = Real.sqrt (r.sigma ^ 2 * s_xx x / denom x) ∧
    r.sigma_b = Real.sqrt (r.sigma ^ 2 * (x.length : ℝ) / denom x) := by
  obtain ⟨hN, -, hr⟩ := least_squares_result_inv x y r h
  subst hr
  exact ⟨hN, rfl, rfl, rfl⟩

/-- Witness for C4 at x = y = [1,2,3]. -/
theorem C4_uncertainties_witness :
    2 < xEx.length ∧
    rEx.sigma = Real.sqrt (RSSat xEx yEx rEx.a rEx.b / ((xEx.length : ℝ) - 2)) ∧
    rEx.sigma_a = Real.sqrt (rEx.sigma ^ 2 * s_xx xEx / denom xEx) ∧
    rEx.sigma_b = Real.sqrt (rEx.sigma ^ 2 * (xEx.length : ℝ) / denom xEx) :=
  C4_uncertainties xEx yEx rEx ls_example

/-- C5: for every input with N ≤ 2 the call fails with the insufficient-data
guard; no `FitResult` is produced, and the outcome depends only on the length
of `x` — not on any data value — so the failure occurs before any statistics
are computed. -/
theorem C5_insufficient_data (x y : List ℝ) (h : x.length ≤ 2) :
    least_squares x y
      = FitOutcome.sysExit FitError.InsufficientData
          "Error! Need at least two data points!" ∧
    (∀ r : FitResult, least_squares x y ≠ FitOutcome.result r) ∧
    (∀ x' y' : List ℝ, x'.length = x.length →
      least_squares x' y' = least_squares x y) := by
  refine ⟨least_squares_insufficient x y h, fun r heq => ?_, fun x' y' hl => ?_⟩
  · rw [least_squares_insufficient x y h] at heq
    exact FitOutcome.noConfusion heq
  · rw [least_squares_insufficient x y h,
      least_squares_insufficient x' y' (hl ▸ h)]

/-- Witness for C5 at x = [1,2], y = [3,4] (the outcome is the same with
y replaced by the empty list, showing no statistic of the data is read). -/
theorem C5_insufficient_data_witness :
    least_squares [1, 2] [3, 4]
      = FitOutcome.sysExit FitError.InsufficientData
          "Error! Need at least two data points!" ∧
    least_squares [9, 9] [] = least_squares [1, 2] [3, 4] :=
  ⟨(C5_insufficient_data [1, 2] [3, 4] (by simp)).1,
   (C5_insufficient_data [1, 2] [3, 4] (by simp)).2.2 [9, 9] [] (by simp)⟩

/-- C6: for every input with N > 2, if |denom| < 1e-6 the call fails with the
degenerate-input guard, and if |denom| ≥ 1e-6 neither error occurs and a
`FitResult` is returned. -/
theorem C6_degenerate_guard (x y : List ℝ) (hN : 2 < x.length) :
    (|denom x| < 0.000001 →
      least_squares x y
        = FitOutcome.sysExit FitError.DegenerateInput
            "Error! Denomominator is zero!") ∧
    (0.000001 ≤ |denom x| →
      ∃ r : FitResult, least_squares x y = FitOutcome.result r) :=
  ⟨fun hd => least_squares_degenerate x y hN hd,
   fun hd => ⟨_, least_squares_success x y hN (not_lt.mpr hd)⟩⟩

/-- Witness for C6 at x = [5,5,5,5], y = [1,2,3,4] (all x equal, denom = 0,
the degenerate-input guard fires). -/
theorem C6_degenerate_guard_witness :
    least_squares [5, 5, 5, 5] [1, 2, 3, 4]
      = FitOutcome.sysExit FitError.DegenerateInput
          "Error! Denomominator is zero!" :=
  (C6_degenerate_guard [5, 5, 5, 5] [1, 2, 3, 4] (by simp)).1
    (by norm_num [denom, s_xx, s_x])

/-- C7: for every successful fit the residuals rᵢ = yᵢ − a − b·xᵢ satisfy the
normal-equation optimality conditions Σrᵢ = 0 and Σxᵢ·rᵢ = 0, exactly, over
exact real arithmetic. -/
theorem C7_residual_orthogonality (x y : List ℝ) (r : FitResult)
    (hlen : x.length = y.length)
    (h : least_squares x y = FitOutcome.result r) :
    (List.zipWith (fun xi yi => yi - r.a - r.b * xi) x y).sum = 0 ∧
    (List.zipWith (fun xi yi => xi * (yi - r.a - r.b * xi)) x y).sum = 0 := by
  obtain ⟨-, hd, hr⟩ := least_squares_result_inv x y r h
  subst hr
  exact normal_equations x y hlen (denom_ne_zero_of_guard x hd)

/-- Witness for C7 at x = y = [1,2,3]. -/
theorem C7_residual_orthogonality_witness :
    (List.zipWith (fun xi yi => yi - rEx.a - rEx.b * xi) xEx yEx).sum = 0 ∧
    (List.zipWith (fun xi yi => xi * (yi - rEx.a - rEx.b * xi)) xEx yEx).sum = 0 :=
  C7_residual_orthogonality xEx yEx rEx rfl ls_example

/-- C8: for every real sequence x, denom = N·Σxᵢ² − (Σxᵢ)² is zero if and
only if all elements of x are equal. -/
theorem C8_denom_zero_iff_const (x : List ℝ) :
    denom x = 0 ↔ ∀ a ∈ x, ∀ b ∈ x, a = b := by
  rw [denom_zero_iff_getD]
  constructor
  · intro h a ha b hb
    obtain ⟨i, hi, rfl⟩ := List.mem_iff_getElem.mp ha
    obtain ⟨j, hj, rfl⟩ := List.mem_iff_getElem.mp hb
    have hij := h i hi j hj
    rwa [List.getD_eq_getElem x 0 hi, List.getD_eq_getElem x 0 hj] at hij
  · intro h i hi j hj
    rw [List.getD_eq_getElem x 0 hi, List.getD_eq_getElem x 0 hj]
    exact h _ (List.getElem_mem hi) _ (List.getElem_mem hj)

/-- C9: `least_squares` is deterministic: the outcome is a pure function of
the two input sequences alone (the embedding is a total function of `x` and
`y`; the only side effect in the source, printing before `sys.exit()`, is
modelled as part of the returned outcome value, and no other external state
is read or written). Two calls on identical inputs give identical outcomes. -/
theorem C9_deterministic (x y x' y' : List ℝ) (hx : x = x') (hy : y = y') :
    least_squares x y = least_squares x' y' := by
  rw [hx, hy]

/-- Witness for C9 at x = y = [1,2,3]. -/
theorem C9_deterministic_witness :
    least_squares xEx yEx = least_squares xEx yEx :=
  C9_deterministic xEx yEx xEx yEx rfl rfl

/-- C10: denom ≥ 0 always (Cauchy–Schwarz, via 2·denom = ΣᵢΣⱼ(xᵢ−xⱼ)²);
under the degeneracy guard denom is strictly positive, the arguments of the
three square roots are non-negative, and the returned sigma, sigma_a,
sigma_b are non-negative real numbers. -/
theorem C10_sqrt_args_nonneg (x y : List ℝ) (hN : 2 < x.length)
    (hd : ¬ |denom x| < 0.000001) :
    0 ≤ denom x ∧ 0 < denom x ∧
    0 ≤ RSSat x y (fit_a x y) (fit_b x y) / ((x.length : ℝ) - 2) ∧
    0 ≤ sigma x y ^ 2 * s_xx x / denom x ∧
    0 ≤ sigma x y ^ 2 * (x.length : ℝ) / denom x ∧
    0 ≤ sigma x y ∧ 0 ≤ sigma_a x y ∧ 0 ≤ sigma_b x y := by
  have hpos := denom_pos_of_guard x hd
  have hN' : (0 : ℝ) < (x.length : ℝ) - 2 := by
    have h3 : (3 : ℕ) ≤ x.length := hN
    have h3' : (3 : ℝ) ≤ (x.length : ℝ) := by exact_mod_cast h3
    linarith
  refine ⟨denom_nonneg x, hpos, div_nonneg (RSSat_nonneg x y _ _) hN'.le, ?_, ?_,
    Real.sqrt_nonneg _, Real.sqrt_nonneg _, Real.sqrt_nonneg _⟩
  · exact div_nonneg (mul_nonneg (sq_nonneg _) (s_xx_nonneg x)) hpos.le
  · exact div_nonneg (mul_nonneg (sq_nonneg _) (Nat.cast_nonneg _)) hpos.le

/-- Witness for C10 at x = y = [1,2,3]. -/
theorem C10_sqrt_args_nonneg_witness :
    0 ≤ denom xEx ∧ 0 < denom xEx ∧
    0 ≤ RSSat xEx yEx (fit_a xEx yEx) (fit_b xEx yEx) / ((xEx.length : ℝ) - 2) ∧
    0 ≤ sigma xEx yEx ^ 2 * s_xx xEx / denom xEx ∧
    0 ≤ sigma xEx yEx ^ 2 * (xEx.length : ℝ) / denom xEx ∧
    0 ≤ sigma xEx yEx ∧ 0 ≤ sigma_a xEx yEx ∧ 0 ≤ sigma_b xEx yEx :=
  C10_sqrt_args_nonneg xEx yEx length_xEx guard_denom_xEx

end LeastSquaresFit
